import Mathlib

/-!
# Verification of the sales-dashboard normalization and geo-aggregation pipeline

Shallow embedding of `src/utils.py` (functions `_to_number`, `_extract_latlon`,
`load_sales_csv`, `aggregate_geo_clusters`).  Python floats are modelled as
exact rationals (`ℚ`), missing values (`None` / `NaN`) as `Option.none`, and
pandas tables as Lean structures carrying column-presence flags plus a list of
rows.  String-processing helpers mirror the corresponding Python `str` methods
on `List Char`; recursion is structural (via explicit fuel where needed) so
that all definitions evaluate inside the kernel.
-/

namespace Dashboard

/-- Python whitespace characters relevant to `str.strip` / `str.split()`. -/
def isPyWs (c : Char) : Bool :=
  c = ' ' || c = '\t' || c = '\n' || c = '\r' || c = '\x0b' || c = '\x0c'

/-- Python `str.strip()` on a character list: drop whitespace at both ends. -/
def pyStrip (l : List Char) : List Char :=
  ((l.dropWhile isPyWs).reverse.dropWhile isPyWs).reverse

/-- One step of Python `str.replace`: with `fuel` bounding the recursion depth,
replace every non-overlapping occurrence of `pat` in `l` by `rep`,
scanning left to right. -/
def replaceFuel (pat rep : List Char) : ℕ → List Char → List Char
  | 0, l => l
  | _ + 1, [] => []
  | fuel + 1, c :: rest =>
    if pat ≠ [] ∧ pat.isPrefixOf (c :: rest) then
      rep ++ replaceFuel pat rep fuel ((c :: rest).drop pat.length)
    else
      c :: replaceFuel pat rep fuel rest

/-- Python `str.replace(pat, rep)` (all occurrences, left to right). -/
def pyReplace (l pat rep : List Char) : List Char :=
  replaceFuel pat rep l.length l

/-- Python `str.split(sep)` for a single-character separator: split at every
occurrence, keeping empty pieces (e.g. `"a,,b" → ["a", "", "b"]`). -/
def splitOnCh (sep : Char) : List Char → List (List Char)
  | [] => [[]]
  | c :: rest =>
    let r := splitOnCh sep rest
    if c = sep then [] :: r
    else match r with
      | [] => [[c]]
      | p :: ps => (c :: p) :: ps

/-- Python `str.split()` (no argument): split on whitespace runs, dropping
empty pieces. -/
def pySplitWs (l : List Char) : List (List Char) :=
  (splitOnCh ' ' (l.map fun c => if isPyWs c then ' ' else c)).filter (· ≠ [])

/-- Digit run to a natural number (most significant first). -/
def digitsToNat (l : List Char) : ℕ :=
  l.foldl (fun acc c => 10 * acc + (c.toNat - '0'.toNat)) 0

/-- `decimalCore l` parses an unsigned decimal mantissa `digits[.digits]`
(at least one digit overall, as Python's `float` requires): returns the
numerator together with the number of fractional digits. -/
def decimalCore (l : List Char) : Option (ℕ × ℕ) :=
  match splitOnCh '.' l with
  | [intPart] =>
    if intPart ≠ [] ∧ intPart.all Char.isDigit then
      some (digitsToNat intPart, 0)
    else none
  | [intPart, fracPart] =>
    if (intPart ≠ [] ∨ fracPart ≠ []) ∧ intPart.all Char.isDigit ∧
        fracPart.all Char.isDigit then
      some (digitsToNat (intPart ++ fracPart), fracPart.length)
    else none
  | _ => none

/-- Optional sign prefix: returns the sign as `1` or `-1` and the rest. -/
def takeSign : List Char → ℤ × List Char
  | '+' :: rest => (1, rest)
  | '-' :: rest => (-1, rest)
  | l => (1, l)

/-- Signed decimal exponent (the part after `e`/`E`): a sign followed by a
nonempty digit run. -/
def parseExp (l : List Char) : Option ℤ :=
  let (sgn, rest) := takeSign l
  if rest ≠ [] ∧ rest.all Char.isDigit then some (sgn * digitsToNat rest)
  else none

/-- The rational value `sgn * mant * 10^e / 10^fracDigits`, assembled with
integer arithmetic only. -/
def ratOfDecimal (sgn : ℤ) (mant fracDigits : ℕ) (e : ℤ) : ℚ :=
  mkRat (sgn * mant * 10 ^ e.toNat) (10 ^ fracDigits * 10 ^ (-e).toNat)

/-- Python `float(s)` on plain decimal notation, as an exact rational:
optional surrounding whitespace, optional sign, mantissa `digits[.digits]`,
optional exponent `e±digits`.  Inputs outside this grammar (including
`"inf"` / `"nan"`, which have no rational value) yield `none`. -/
def pyFloat (l : List Char) : Option ℚ :=
  let (sgn, body) := takeSign (pyStrip l)
  match splitOnCh 'e' (body.map fun c => if c = 'E' then 'e' else c) with
  | [mant] => (decimalCore mant).map fun m => ratOfDecimal sgn m.1 m.2 0
  | [mant, expPart] =>
    match decimalCore mant, parseExp expPart with
    | some m, some e => some (ratOfDecimal sgn m.1 m.2 e)
    | _, _ => none
  | _ => none

/-- `_to_number` from `src/utils.py`, on an optional cell value (`none`
models `None`/`NaN`; non-string numeric cells do not arise because the loader
reads every column as text).  Strips currency symbols, removes internal
spaces, disambiguates comma/period separators, and parses; `none` on
failure. -/
def toNumber (s : Option String) : Option ℚ :=
  match s with
  | none => none
  | some str =>
    let l0 := pyStrip str.data
    let l1 := [['$'], ['U', 'S', '$'], ['B', 's'], ['B', 's', '.'], ['€'], ['¢']].foldl
      (fun acc pat => pyReplace acc pat []) l0
    let l2 := pyReplace l1 [' '] []
    let l3 :=
      if l2.count ',' = 1 ∧ 0 < l2.count '.' then
        pyReplace (pyReplace l2 ['.'] []) [','] ['.']
      else if l2.count ',' = 1 ∧ l2.count '.' = 0 then
        pyReplace l2 [','] ['.']
      else
        pyReplace l2 [','] []
    pyFloat l3

/-- `_extract_latlon` from `src/utils.py`: requires a comma to be present at
all; tries `val.split(',')` into exactly two float parts; on any failure of
that attempt, falls back to whitespace splitting (first two tokens), and any
remaining failure yields `(none, none)`. -/
def extractLatlon (val : Option String) : Option ℚ × Option ℚ :=
  match val with
  | none => (none, none)
  | some v =>
    if ¬ v.data.contains ',' then (none, none)
    else
      match splitOnCh ',' v.data with
      | [latStr, lonStr] =>
        match pyFloat latStr, pyFloat lonStr with
        | some la, some lo => (some la, some lo)
        | _, _ => whitespaceFallback v.data
      | _ => whitespaceFallback v.data
where
  /-- The `except` branch: split on whitespace and parse the first two
  tokens; `(none, none)` when fewer than two tokens or a parse fails. -/
  whitespaceFallback (l : List Char) : Option ℚ × Option ℚ :=
    match pySplitWs l with
    | t₀ :: t₁ :: _ =>
      match pyFloat t₀, pyFloat t₁ with
      | some la, some lo => (some la, some lo)
      | _, _ => (none, none)
    | _ => (none, none)

/-! ## Exact rational arithmetic

Python-float operations are modelled by exact rational arithmetic.  The
wrappers below are stated through `mkRat` so that they evaluate by kernel
reduction on concrete inputs; the bridge lemmas prove each one equal to the
corresponding Mathlib field operation on `ℚ`. -/

/-- Addition on `ℚ` via `mkRat`. -/
def qadd (a b : ℚ) : ℚ := mkRat (a.num * b.den + b.num * a.den) (a.den * b.den)

/-- Subtraction on `ℚ` via `mkRat`. -/
def qsub (a b : ℚ) : ℚ := mkRat (a.num * b.den - b.num * a.den) (a.den * b.den)

/-- Multiplication on `ℚ` via `mkRat`. -/
def qmul (a b : ℚ) : ℚ := mkRat (a.num * b.num) (a.den * b.den)

/-- Division on `ℚ` via `mkRat` (zero when the divisor is zero, matching
Mathlib's convention; the pipeline never divides by zero unguarded). -/
def qdiv (a b : ℚ) : ℚ :=
  mkRat (a.num * b.den * (if 0 ≤ b.num then 1 else -1)) (a.den * b.num.natAbs)

/-- Sum of a list of rationals via `qadd`. -/
def qsum (l : List ℚ) : ℚ := l.foldr qadd 0

/-! ## Record Normalizer (`load_sales_csv`)

The CSV has already been read (`pd.read_csv(path, sep=';', dtype=str)`),
so the input is a table of optional string cells with column-presence flags
(`col in df.columns`).  A missing cell (`NaN`) is `none`; `astype(str)` turns
it into the text `"nan"`, whose `float` image is the non-number `NaN`, which
this model also identifies with `none`.  The date columns (`FechaVta`,
`FechaVta_raw`, `FechaVta_valid`) and the normalizer's convenience
`geo_cluster` column are not modelled: no stated property depends on them. -/

/-- A raw row: the cells of the source columns the pipeline derives fields
from.  A cell is `none` when it is `NaN` in the frame (or when its column is
absent, in which case the flag in `RawTable` governs). -/
structure RawRow where
  vtaFacturada : Option String
  valVentaLi : Option String
  costo : Option String
  georeferenciado : Option String
deriving DecidableEq

/-- A raw table: which source columns exist, and the rows. -/
structure RawTable where
  hasVtaFacturada : Bool
  hasValVentaLi : Bool
  hasCosto : Bool
  hasGeoreferenciado : Bool
  hasNombreComercial : Bool
  hasDescMaterial : Bool
  hasDescGrArticulo : Bool
  hasCiudad : Bool
  hasZonaVenta : Bool
  rows : List RawRow
deriving DecidableEq

/-- A normalized row (`load_sales_csv` output, per record). -/
structure NormRow where
  vtaFacturada : Option ℚ
  valVentaLi : Option ℚ
  costo : Option ℚ
  revenue_val : Option ℚ
  revenue_vta : Option ℚ
  revenue_default : Option ℚ
  lat : Option ℚ
  lon : Option ℚ
  margin : Option ℚ
  margin_pct : Option ℚ
deriving DecidableEq

/-- The normalized table: presence flags for the derived columns whose
creation is conditional in the source, plus the rows.  `hasLat`/`hasLon`
record whether the `lat`/`lon` columns exist in the output frame. -/
structure NormTable where
  hasLat : Bool
  hasLon : Bool
  hasMargin : Bool
  hasCliente : Bool
  hasProducto : Bool
  hasCategoria : Bool
  hasCiudad : Bool
  hasZona : Bool
  rows : List NormRow
deriving DecidableEq

/-- `df[col].astype(str).map(_to_number)` for a numeric column, yielding
`none` for every row when the column is absent. -/
def numericCol (has : Bool) (cell : Option String) : Option ℚ :=
  if has then toNumber cell else none

/-- pandas elementwise subtraction: `NaN` (here `none`) propagates. -/
def pdSub (a b : Option ℚ) : Option ℚ :=
  match a, b with
  | some x, some y => some (qsub x y)
  | _, _ => none

/-- pandas elementwise division: `NaN`/`NA` (here `none`) propagates.  The
pipeline applies it only after replacing `0` denominators with `NA`, so the
`inf` results of float division by zero never arise. -/
def pdDiv (a b : Option ℚ) : Option ℚ :=
  match a, b with
  | some x, some y => some (qdiv x y)
  | _, _ => none

/-- `series.replace({0: pd.NA})` on one cell. -/
def replaceZeroNA (a : Option ℚ) : Option ℚ :=
  match a with
  | some x => if x = 0 then none else some x
  | none => none

/-- The normalized record derived from one raw row, given the table's
column-presence flags (`load_sales_csv`, lines 71–129 of `src/utils.py`). -/
def normalizeRow (t : RawTable) (r : RawRow) : NormRow :=
  let vta := numericCol t.hasVtaFacturada r.vtaFacturada
  let val := numericCol t.hasValVentaLi r.valVentaLi
  let costo := numericCol t.hasCosto r.costo
  let revenue_val := if t.hasValVentaLi then val else none
  let revenue_vta := if t.hasVtaFacturada then vta else none
  let revenue_default := revenue_vta.or revenue_val
  let latlon :=
    if t.hasGeoreferenciado then extractLatlon (some (r.georeferenciado.getD ""))
    else (none, none)
  let margin :=
    if t.hasCosto ∧ t.hasValVentaLi then pdSub val costo else none
  let margin_pct :=
    if t.hasCosto ∧ t.hasValVentaLi then pdDiv margin (replaceZeroNA val) else none
  { vtaFacturada := vta
    valVentaLi := val
    costo := costo
    revenue_val := revenue_val
    revenue_vta := revenue_vta
    revenue_default := revenue_default
    lat := latlon.1
    lon := latlon.2
    margin := margin
    margin_pct := margin_pct }

/-- `load_sales_csv`, from the frame produced by `pd.read_csv` onwards:
the `lat`/`lon` columns are created unconditionally (lines 94–95), the alias
and margin columns only when their source columns exist. -/
def load_sales_csv (t : RawTable) : NormTable :=
  { hasLat := true
    hasLon := true
    hasMargin := t.hasCosto && t.hasValVentaLi
    hasCliente := t.hasNombreComercial
    hasProducto := t.hasDescMaterial
    hasCategoria := t.hasDescGrArticulo
    hasCiudad := t.hasCiudad
    hasZona := t.hasZonaVenta
    rows := t.rows.map (normalizeRow t) }

/-! ## Rounding (Python `round(x, ndigits)`)

Python rounds half to even.  On exact rationals: scale by `10^p`, round half
to even to an integer, scale back.  Negative `p` (rounding left of the
decimal point) is permitted, as in the source. -/

/-- `⌊x⌋` as integer floor division of numerator by denominator. -/
def qfloor (x : ℚ) : ℤ := x.num.fdiv x.den

/-- Round half to even to an integer. -/
def roundHalfEven (x : ℚ) : ℤ :=
  let f := qfloor x
  let frac := qsub x (mkRat f 1)
  if frac < mkRat 1 2 then f
  else if mkRat 1 2 < frac then f + 1
  else if f % 2 = 0 then f else f + 1

/-- `10 ^ p : ℚ` for a possibly negative integer `p`. -/
def pow10 (p : ℤ) : ℚ :=
  if 0 ≤ p then mkRat (10 ^ p.toNat) 1 else mkRat 1 (10 ^ (-p).toNat)

/-- Python `round(x, p)`: half-to-even at `p` decimal digits. -/
def pyround (p : ℤ) (x : ℚ) : ℚ :=
  qmul (mkRat (roundHalfEven (qmul x (pow10 p))) 1) (pow10 (-p))

/-! ## Geo-Cluster Aggregator (`aggregate_geo_clusters`)

The input is any frame holding (or not) `lat` / `lon` columns and the chosen
revenue column; the model keeps exactly those three columns per row, with
table-level flags for their presence (`revenue_col` is a name in the source,
so its presence is a flag here).  `groupby('cluster')` sorts the group keys
ascending (pandas default `sort=True`, tuples ordered lexicographically);
`sort_values('revenue', ascending=False)` computes a stable ascending argsort
of the reversed values and reverses the resulting ordering, which is modelled
by `reverse ∘ stable-insertion-sort ∘ reverse`.  The `try/except` around the
key computation cannot fail here (rounding exact rationals is total), and the
final `agg['cluster'].notna()` filter keeps everything, because every key is
built from present coordinates. -/

instance {ε α : Type} [DecidableEq ε] [DecidableEq α] : DecidableEq (Except ε α)
  | .ok a, .ok b => decidable_of_iff (a = b) (by simp)
  | .error e, .error f => decidable_of_iff (e = f) (by simp)
  | .ok _, .error _ => isFalse (by simp)
  | .error _, .ok _ => isFalse (by simp)

/-- One row as seen by the aggregator: the two coordinate cells and the cell
of the chosen revenue column. -/
structure GeoRow where
  lat : Option ℚ
  lon : Option ℚ
  rev : Option ℚ
deriving DecidableEq

/-- The aggregator's input table, with presence flags for the `lat` and
`lon` columns and for the column named by `revenue_col`. -/
structure GeoTable where
  hasLat : Bool
  hasLon : Bool
  hasRevenueCol : Bool
  rows : List GeoRow
deriving DecidableEq

/-- One output cluster bucket. -/
structure Bucket where
  cluster : ℚ × ℚ
  latitude : ℚ
  longitude : ℚ
  revenue : ℚ
  count : ℕ
deriving DecidableEq

/-- `(round(float(lat), precision), round(float(lon), precision))`; applied
only to rows whose coordinates are present (the `getD` default is never
read). -/
def clusterKey (p : ℤ) (r : GeoRow) : ℚ × ℚ :=
  (pyround p (r.lat.getD 0), pyround p (r.lon.getD 0))

/-- First occurrence of each element, in input order. -/
def firstOcc {α : Type} [DecidableEq α] : List α → List α
  | [] => []
  | a :: l => a :: (firstOcc l).filter (fun b => b ≠ a)

/-- Insert into a sorted list, before the first element `b` with `le a b`
(so among `le`-equivalent elements the inserted one comes first). -/
def insertLE {α : Type} (le : α → α → Bool) (a : α) : List α → List α
  | [] => [a]
  | b :: l => if le a b then a :: b :: l else b :: insertLE le a l

/-- Stable insertion sort by `le`. -/
def isortLE {α : Type} (le : α → α → Bool) : List α → List α
  | [] => []
  | a :: l => insertLE le a (isortLE le l)

/-- Lexicographic order on cluster keys (pandas sorts tuple keys this way in
`groupby`). -/
def keyLE (k₁ k₂ : ℚ × ℚ) : Bool :=
  decide (k₁.1 < k₂.1) || (decide (k₁.1 = k₂.1) && decide (k₁.2 ≤ k₂.2))

/-- Ascending comparison of bucket revenue, for `sort_values`. -/
def revLE (b₁ b₂ : Bucket) : Bool := decide (b₁.revenue ≤ b₂.revenue)

/-- Strict lexicographic order on cluster keys. -/
def keyLT (k₁ k₂ : ℚ × ℚ) : Prop :=
  k₁.1 < k₂.1 ∨ (k₁.1 = k₂.1 ∧ k₁.2 < k₂.2)

/-- The bucket aggregated over the `tmp` rows whose key equals `k`:
`sum` and `count` are pandas aggregations of the revenue column (both skip
nulls — `sum` of an all-null group is `0`, `count` counts non-null cells),
and the centroid is the mean of the raw (unrounded) coordinates. -/
def bucketFor (tmp : List GeoRow) (p : ℤ) (k : ℚ × ℚ) : Bucket :=
  let grp := tmp.filter (fun r => decide (clusterKey p r = k))
  let revs := grp.filterMap (·.rev)
  { cluster := k
    revenue := qsum revs
    latitude := qdiv (qsum (grp.filterMap (·.lat))) (mkRat grp.length 1)
    longitude := qdiv (qsum (grp.filterMap (·.lon))) (mkRat grp.length 1)
    count := revs.length }

/-- `pd.notna(r['lat']) and pd.notna(r['lon'])`: both coordinates present. -/
def coordPresent (r : GeoRow) : Bool := r.lat.isSome && r.lon.isSome

/-- `df[['lat', 'lon', revenue_col]].dropna(subset=['lat', 'lon'])`. -/
def tmpOf (t : GeoTable) : List GeoRow := t.rows.filter coordPresent

/-- The distinct cluster keys of the retained rows, in the ascending order
`groupby('cluster')` (with its default `sort=True`) enumerates the groups. -/
def keysOf (t : GeoTable) (p : ℤ) : List (ℚ × ℚ) :=
  isortLE keyLE (firstOcc ((tmpOf t).map (clusterKey p)))

/-- The bucket list after `sort_values('revenue', ascending=False)`: pandas
argsorts the reversed column with a stable kind and reverses the resulting
order, i.e. `reverse ∘ stable-sort-ascending ∘ reverse`. -/
def sortedBuckets (t : GeoTable) (p : ℤ) : List Bucket :=
  (isortLE revLE (((keysOf t p).map (bucketFor (tmpOf t) p)).reverse)).reverse

/-- `aggregate_geo_clusters(df, precision, revenue_col)`.  Empty frames and
frames without coordinate columns yield an empty result; a missing revenue
column raises a `KeyError` at the column selection (modelled as `.error`). -/
def aggregate_geo_clusters (t : GeoTable) (p : ℤ) : Except String (List Bucket) :=
  if t.rows.isEmpty then .ok []
  else if ¬ (t.hasLat ∧ t.hasLon) then .ok []
  else if ¬ t.hasRevenueCol then .error "KeyError: revenue column not in index"
  else if (tmpOf t).isEmpty then .ok []
  else .ok (sortedBuckets t p)

/-! ## Spec-side predicates and concrete tables used by the stated properties -/

/-- The spec's bucket size: the number of input records with both
coordinates present whose rounded coordinates equal `k` (regardless of
whether their revenue cell is null). -/
def countCoordMatching (t : GeoTable) (p : ℤ) (k : ℚ × ℚ) : ℕ :=
  (t.rows.filter (fun r => coordPresent r && decide (clusterKey p r = k))).length

/-- As `countCoordMatching`, but additionally requiring a non-null revenue
cell — what `count=(revenue_col, 'count')` actually counts. -/
def countCoordRevMatching (t : GeoTable) (p : ℤ) (k : ℚ × ℚ) : ℕ :=
  (t.rows.filter
    (fun r => coordPresent r && r.rev.isSome && decide (clusterKey p r = k))).length

/-- Cluster keys in first-encountered (input) order. -/
def firstEncounterKeys (t : GeoTable) (p : ℤ) : List (ℚ × ℚ) :=
  firstOcc ((tmpOf t).map (clusterKey p))

/-- A model `GeoTable` that represents an actual frame: a coordinate column
that is absent from the frame has no values in any row. -/
def latlonConsistent (t : GeoTable) : Prop :=
  (t.hasLat = false → ∀ r ∈ t.rows, r.lat = none) ∧
  (t.hasLon = false → ∀ r ∈ t.rows, r.lon = none)

/-- Descending revenue with the deterministic tie-break the code produces:
equal revenues are ordered by ascending cluster key. -/
def bucketOrder (b₁ b₂ : Bucket) : Prop :=
  b₂.revenue < b₁.revenue ∨ (b₁.revenue = b₂.revenue ∧ keyLT b₁.cluster b₂.cluster)

/-- A raw row with every modelled cell populated. -/
def rawR1 : RawRow :=
  { vtaFacturada := some "10", valVentaLi := some "20", costo := some "5",
    georeferenciado := some "1,2" }

/-- A raw row with no cells. -/
def rawR0 : RawRow :=
  { vtaFacturada := none, valVentaLi := none, costo := none,
    georeferenciado := none }

/-- A raw table with every source column present, holding `rawR1`. -/
def rawT1 : RawTable :=
  { hasVtaFacturada := true, hasValVentaLi := true, hasCosto := true,
    hasGeoreferenciado := true, hasNombreComercial := true,
    hasDescMaterial := true, hasDescGrArticulo := true, hasCiudad := true,
    hasZonaVenta := true, rows := [rawR1] }

/-- A raw table with no recognized source columns, holding `rawR0`. -/
def rawT0 : RawTable :=
  { hasVtaFacturada := false, hasValVentaLi := false, hasCosto := false,
    hasGeoreferenciado := false, hasNombreComercial := false,
    hasDescMaterial := false, hasDescGrArticulo := false, hasCiudad := false,
    hasZonaVenta := false, rows := [rawR0] }

/-- Two records at the same rounded location, the second with a null revenue
cell. -/
def geoT2 : GeoTable :=
  { hasLat := true, hasLon := true, hasRevenueCol := true,
    rows := [{ lat := some 1, lon := some 0, rev := some 5 },
             { lat := some 1, lon := some 0, rev := none }] }

/-- The single bucket `aggregate_geo_clusters` produces on `geoT2`. -/
def bkt2 : Bucket :=
  { cluster := (1, 0), latitude := 1, longitude := 0, revenue := 5, count := 1 }

/-- Two records with equal revenue whose first-encountered key order is the
reverse of ascending key order. -/
def geoT4 : GeoTable :=
  { hasLat := true, hasLon := true, hasRevenueCol := true,
    rows := [{ lat := some 5, lon := some 0, rev := some 1 },
             { lat := some 1, lon := some 0, rev := some 1 }] }

/-- The two buckets `aggregate_geo_clusters` produces on `geoT4`, in output
order. -/
def bkt4a : Bucket :=
  { cluster := (1, 0), latitude := 1, longitude := 0, revenue := 1, count := 1 }

/-- Second bucket of the `geoT4` output. -/
def bkt4b : Bucket :=
  { cluster := (5, 0), latitude := 5, longitude := 0, revenue := 1, count := 1 }

/-- Two records that share their precision-3 key but split at precision 0:
latitudes `0.4996` and `0.5004` both round to `0.500` at three digits, yet to
`0` and `1` at zero digits. -/
def geoT8 : GeoTable :=
  { hasLat := true, hasLon := true, hasRevenueCol := true,
    rows := [{ lat := some (mkRat 4996 10000), lon := some 0, rev := some 1 },
             { lat := some (mkRat 5004 10000), lon := some 0, rev := some 1 }] }

/-- The single bucket `aggregate_geo_clusters` produces on `geoT8` at
precision 3. -/
def bkt8 : Bucket :=
  { cluster := (mkRat 1 2, 0), latitude := mkRat 1 2, longitude := 0,
    revenue := 2, count := 2 }

/-- First bucket of the `geoT8` output at precision 0. -/
def bkt8a : Bucket :=
  { cluster := (0, 0), latitude := mkRat 4996 10000, longitude := 0,
    revenue := 1, count := 1 }

/-- Second bucket of the `geoT8` output at precision 0. -/
def bkt8b : Bucket :=
  { cluster := (1, 0), latitude := mkRat 5004 10000, longitude := 0,
    revenue := 1, count := 1 }

/-- A nonempty table with coordinate columns but no revenue column. -/
def geoT9 : GeoTable :=
  { hasLat := true, hasLon := true, hasRevenueCol := false,
    rows := [{ lat := some 1, lon := some 2, rev := none }] }

/-! ## Bridge lemmas: the `mkRat` wrappers equal the field operations -/

theorem mkRat_eq_div' (n : ℤ) (d : ℕ) : mkRat n d = (n : ℚ) / (d : ℚ) := by
  rw [Rat.mkRat_eq_divInt, Rat.divInt_eq_div]; norm_cast

theorem qadd_eq (a b : ℚ) : qadd a b = a + b := by
  have ha : ((a.den : ℚ)) ≠ 0 := by exact_mod_cast a.den_nz
  have hb : ((b.den : ℚ)) ≠ 0 := by exact_mod_cast b.den_nz
  rw [qadd, mkRat_eq_div']
  push_cast
  conv_rhs => rw [← Rat.num_div_den a, ← Rat.num_div_den b]
  rw [div_add_div _ _ ha hb]
  congr 1
  ring

theorem qsub_eq (a b : ℚ) : qsub a b = a - b := by
  have ha : ((a.den : ℚ)) ≠ 0 := by exact_mod_cast a.den_nz
  have hb : ((b.den : ℚ)) ≠ 0 := by exact_mod_cast b.den_nz
  rw [qsub, mkRat_eq_div']
  push_cast
  conv_rhs => rw [← Rat.num_div_den a, ← Rat.num_div_den b]
  rw [div_sub_div _ _ ha hb]
  congr 1
  ring

theorem qmul_eq (a b : ℚ) : qmul a b = a * b := by
  have ha : ((a.den : ℚ)) ≠ 0 := by exact_mod_cast a.den_nz
  have hb : ((b.den : ℚ)) ≠ 0 := by exact_mod_cast b.den_nz
  rw [qmul, mkRat_eq_div']
  push_cast
  conv_rhs => rw [← Rat.num_div_den a, ← Rat.num_div_den b]
  rw [div_mul_div_comm]

theorem qdiv_eq (a b : ℚ) : qdiv a b = a / b := by
  rw [qdiv, Rat.mkRat_eq_divInt, Rat.div_def']
  rcases le_or_lt 0 b.num with hs | hs
  · rw [if_pos hs, mul_one]
    congr 1
    push_cast [Int.natAbs_of_nonneg hs]
    ring
  · rw [if_neg (not_le.mpr hs)]
    have hden : ((a.den * b.num.natAbs : ℕ) : ℤ) = -((a.den : ℤ) * b.num) := by
      push_cast [Int.ofNat_natAbs_of_nonpos hs.le]
      ring
    rw [hden, Rat.divInt_neg]
    congr 1
    ring

theorem qsum_eq (l : List ℚ) : qsum l = l.sum := by
  induction l with
  | nil => rfl
  | cons a l ih => rw [qsum, List.foldr_cons, qadd_eq, List.sum_cons, ← qsum, ih]

/-! ## Library lemmas about the sorting and dedup primitives -/

theorem mem_insertLE {α : Type} (le : α → α → Bool) (a x : α) (s : List α) :
    x ∈ insertLE le a s ↔ x = a ∨ x ∈ s := by
  induction s with
  | nil => simp [insertLE]
  | cons b s ih =>
    cases h : le a b with
    | true => simp [insertLE, h]
    | false =>
      simp only [insertLE, h, Bool.false_eq_true, if_false, List.mem_cons, ih]
      tauto

theorem insertLE_perm {α : Type} (le : α → α → Bool) (a : α) (s : List α) :
    List.Perm (insertLE le a s) (a :: s) := by
  induction s with
  | nil => exact List.Perm.refl _
  | cons b s ih =>
    cases h : le a b with
    | true =>
      simp only [insertLE, h, if_true]
      exact List.Perm.refl _
    | false =>
      simp only [insertLE, h, Bool.false_eq_true, if_false]
      exact (ih.cons b).trans (List.Perm.swap a b s)

theorem isortLE_perm {α : Type} (le : α → α → Bool) (l : List α) :
    List.Perm (isortLE le l) l := by
  induction l with
  | nil => exact List.Perm.refl _
  | cons a l ih => exact (insertLE_perm le a (isortLE le l)).trans (ih.cons a)

theorem insertLE_sorted {α : Type} (le : α → α → Bool)
    (htot : ∀ x y, le x y = true ∨ le y x = true)
    (htrans : ∀ x y z, le x y = true → le y z = true → le x z = true)
    (a : α) (s : List α) (hs : s.Pairwise (fun x y => le x y = true)) :
    (insertLE le a s).Pairwise (fun x y => le x y = true) := by
  induction s with
  | nil => simp [insertLE]
  | cons b s ih =>
    rcases List.pairwise_cons.mp hs with ⟨hb, hs'⟩
    cases h : le a b with
    | true =>
      simp only [insertLE, h, if_true]
      refine List.pairwise_cons.mpr ⟨?_, hs⟩
      intro c hc
      rcases List.mem_cons.mp hc with rfl | hc
      · exact h
      · exact htrans a b c h (hb c hc)
    | false =>
      simp only [insertLE, h, Bool.false_eq_true, if_false]
      refine List.pairwise_cons.mpr ⟨?_, ih hs'⟩
      intro c hc
      rcases (mem_insertLE le a c s).mp hc with rfl | hc
      · rcases htot c b with h' | h'
        · rw [h] at h'
          exact absurd h' (by simp)
        · exact h'
      · exact hb c hc

theorem isortLE_sorted {α : Type} (le : α → α → Bool)
    (htot : ∀ x y, le x y = true ∨ le y x = true)
    (htrans : ∀ x y z, le x y = true → le y z = true → le x z = true)
    (l : List α) : (isortLE le l).Pairwise (fun x y => le x y = true) := by
  induction l with
  | nil => simp [isortLE]
  | cons a l ih => exact insertLE_sorted le htot htrans a (isortLE le l) ih

theorem insertLE_pairwiseP {α : Type} (le : α → α → Bool) (P : α → α → Prop)
    (htrans : ∀ x y z, le x y = true → le y z = true → le x z = true)
    (a : α) (s : List α)
    (hsort : s.Pairwise (fun x y => le x y = true))
    (hP : s.Pairwise P)
    (h1 : ∀ b ∈ s, le a b = true → P a b)
    (h2 : ∀ b ∈ s, le a b = false → P b a) :
    (insertLE le a s).Pairwise P := by
  induction s with
  | nil => simp [insertLE]
  | cons b s ih =>
    rcases List.pairwise_cons.mp hsort with ⟨hble, hsort'⟩
    rcases List.pairwise_cons.mp hP with ⟨hbP, hP'⟩
    cases h : le a b with
    | true =>
      simp only [insertLE, h, if_true]
      refine List.pairwise_cons.mpr ⟨?_, hP⟩
      intro c hc
      rcases List.mem_cons.mp hc with rfl | hc
      · exact h1 c (by simp) h
      · exact h1 c (by simp [hc]) (htrans a b c h (hble c hc))
    | false =>
      simp only [insertLE, h, Bool.false_eq_true, if_false]
      refine List.pairwise_cons.mpr ⟨?_, ?_⟩
      · intro c hc
        rcases (mem_insertLE le a c s).mp hc with rfl | hc
        · exact h2 b (by simp) h
        · exact hbP c hc
      · exact ih hsort' hP' (fun c hc hle => h1 c (by simp [hc]) hle)
          (fun c hc hle => h2 c (by simp [hc]) hle)

theorem isortLE_pairwiseP {α : Type} (le : α → α → Bool) (P R : α → α → Prop)
    (htot : ∀ x y, le x y = true ∨ le y x = true)
    (htrans : ∀ x y z, le x y = true → le y z = true → le x z = true)
    (hRP : ∀ x y, R x y → le x y = true → P x y)
    (hRP' : ∀ x y, R x y → le x y = false → P y x)
    (l : List α) (hl : l.Pairwise R) : (isortLE le l).Pairwise P := by
  induction l with
  | nil => simp [isortLE]
  | cons a l ih =>
    rcases List.pairwise_cons.mp hl with ⟨ha, hl'⟩
    refine insertLE_pairwiseP le P htrans a (isortLE le l)
      (isortLE_sorted le htot htrans l) (ih hl') ?_ ?_
    · intro b hb hle
      exact hRP a b (ha b ((isortLE_perm le l).mem_iff.mp hb)) hle
    · intro b hb hle
      exact hRP' a b (ha b ((isortLE_perm le l).mem_iff.mp hb)) hle

theorem mem_firstOcc {α : Type} [DecidableEq α] (x : α) (l : List α) :
    x ∈ firstOcc l ↔ x ∈ l := by
  induction l with
  | nil => simp [firstOcc]
  | cons a l ih =>
    by_cases hx : x = a
    · subst hx
      simp [firstOcc]
    · simp [firstOcc, hx, ih]

theorem firstOcc_nodup {α : Type} [DecidableEq α] (l : List α) :
    (firstOcc l).Nodup := by
  induction l with
  | nil => simp [firstOcc]
  | cons a l ih =>
    refine List.nodup_cons.mpr ⟨?_, List.Nodup.filter _ ih⟩
    intro h
    rcases List.mem_filter.mp h with ⟨-, hne⟩
    simp at hne

theorem firstOcc_toFinset {α : Type} [DecidableEq α] (l : List α) :
    (firstOcc l).toFinset = l.toFinset := by
  induction l with
  | nil => rfl
  | cons a l ih =>
    have herase : ((firstOcc l).filter (fun b => b ≠ a)).toFinset
        = (firstOcc l).toFinset.erase a := by
      ext x
      simp only [List.mem_toFinset, List.mem_filter, Finset.mem_erase,
        decide_eq_true_eq]
      tauto
    simp only [firstOcc, List.toFinset_cons, herase, ih]
    ext x
    by_cases hx : x = a <;> simp [hx, ih]

theorem firstOcc_length_eq_card {α : Type} [DecidableEq α] (l : List α) :
    (firstOcc l).length = l.toFinset.card := by
  rw [← firstOcc_toFinset, List.toFinset_card_of_nodup (firstOcc_nodup l)]

theorem list_toFinset_map {α β : Type} [DecidableEq α] [DecidableEq β]
    (g : α → β) (l : List α) : (l.map g).toFinset = l.toFinset.image g := by
  ext x
  simp [List.mem_map]

theorem firstOcc_map_length_le {α β : Type} [DecidableEq α] [DecidableEq β]
    (g : α → β) (l : List α) :
    (firstOcc (l.map g)).length ≤ (firstOcc l).length := by
  rw [firstOcc_length_eq_card, firstOcc_length_eq_card, list_toFinset_map]
  exact Finset.card_image_le

/-! ## Order facts for the two comparators -/

theorem keyLE_total (k₁ k₂ : ℚ × ℚ) : keyLE k₁ k₂ = true ∨ keyLE k₂ k₁ = true := by
  simp only [keyLE, Bool.or_eq_true, Bool.and_eq_true, decide_eq_true_eq]
  rcases lt_trichotomy k₁.1 k₂.1 with h | h | h
  · exact Or.inl (Or.inl h)
  · rcases le_total k₁.2 k₂.2 with h2 | h2
    · exact Or.inl (Or.inr ⟨h, h2⟩)
    · exact Or.inr (Or.inr ⟨h.symm, h2⟩)
  · exact Or.inr (Or.inl h)

theorem keyLE_trans (k₁ k₂ k₃ : ℚ × ℚ) (h12 : keyLE k₁ k₂ = true)
    (h23 : keyLE k₂ k₃ = true) : keyLE k₁ k₃ = true := by
  simp only [keyLE, Bool.or_eq_true, Bool.and_eq_true, decide_eq_true_eq] at *
  rcases h12 with h12 | ⟨h12, h12'⟩ <;> rcases h23 with h23 | ⟨h23, h23'⟩
  · exact Or.inl (h12.trans h23)
  · exact Or.inl (h23 ▸ h12)
  · exact Or.inl (h12 ▸ h23)
  · exact Or.inr ⟨h12.trans h23, h12'.trans h23'⟩

theorem keyLE_ne_lt (k₁ k₂ : ℚ × ℚ) (h : keyLE k₁ k₂ = true) (hne : k₁ ≠ k₂) :
    keyLT k₁ k₂ := by
  simp only [keyLE, Bool.or_eq_true, Bool.and_eq_true, decide_eq_true_eq] at h
  rcases h with h | ⟨h, h'⟩
  · exact Or.inl h
  · refine Or.inr ⟨h, lt_of_le_of_ne h' ?_⟩
    intro h2
    exact hne (Prod.ext h h2)

theorem not_keyLE_lt (k₁ k₂ : ℚ × ℚ) (h : keyLE k₁ k₂ = false) : keyLT k₂ k₁ := by
  simp only [keyLE, Bool.or_eq_false_iff, Bool.and_eq_false_iff,
    decide_eq_false_iff_not, not_lt] at h
  rcases h with ⟨h1, h2⟩
  rcases lt_or_eq_of_le h1 with h | h
  · exact Or.inl h
  · rcases h2 with h2 | h2
    · exact absurd h.symm h2
    · exact Or.inr ⟨h, lt_of_not_le h2⟩

theorem revLE_total (b₁ b₂ : Bucket) : revLE b₁ b₂ = true ∨ revLE b₂ b₁ = true := by
  simp only [revLE, decide_eq_true_eq]
  exact le_total _ _

theorem revLE_trans (b₁ b₂ b₃ : Bucket) (h12 : revLE b₁ b₂ = true)
    (h23 : revLE b₂ b₃ = true) : revLE b₁ b₃ = true := by
  simp only [revLE, decide_eq_true_eq] at *
  exact h12.trans h23

/-! ## Sum and count decomposition lemmas -/

theorem length_filterMap_isSome {α β : Type} (f : α → Option β) (l : List α) :
    (l.filterMap f).length = (l.filter (fun a => (f a).isSome)).length := by
  induction l with
  | nil => rfl
  | cons a l ih => cases h : f a <;> simp [List.filterMap_cons, h, ih]

theorem filter_filter_and {α : Type} (p q : α → Bool) (l : List α) :
    (l.filter p).filter q = l.filter (fun a => p a && q a) := by
  induction l with
  | nil => rfl
  | cons a l ih =>
    cases hp : p a <;> cases hq : q a <;> simp [List.filter_cons, hp, hq, ih]

theorem sum_filterMap_split {α : Type} (p : α → Bool) (g : α → Option ℚ)
    (l : List α) :
    ((l.filter p).filterMap g).sum + ((l.filter (fun a => ! p a)).filterMap g).sum
      = (l.filterMap g).sum := by
  induction l with
  | nil => simp
  | cons a l ih =>
    cases hp : p a
    · cases hg : g a <;>
        simp only [List.filter_cons, hp, Bool.not_false, if_true, if_false,
          Bool.false_eq_true, List.filterMap_cons, hg, List.sum_cons] <;>
        [exact ih; skip]
      rw [← ih]
      ring
    · cases hg : g a <;>
        simp only [List.filter_cons, hp, Bool.not_true, if_true, if_false,
          Bool.false_eq_true, List.filterMap_cons, hg, List.sum_cons] <;>
        [exact ih; skip]
      rw [← ih]
      ring

theorem sum_fibers {α κ : Type} [DecidableEq κ] (f : α → κ) (g : α → Option ℚ)
    (ks : List κ) (l : List α) (hnd : ks.Nodup) (hcov : ∀ a ∈ l, f a ∈ ks) :
    (ks.map (fun k => ((l.filter (fun a => decide (f a = k))).filterMap g).sum)).sum
      = (l.filterMap g).sum := by
  induction ks generalizing l with
  | nil =>
    have : l = [] := by
      cases l with
      | nil => rfl
      | cons a l => exact absurd (hcov a (by simp)) (by simp)
    subst this
    rfl
  | cons k ks ih =>
    rcases List.nodup_cons.mp hnd with ⟨hk, hnd'⟩
    have hsplit := sum_filterMap_split (fun a => decide (f a = k)) g l
    set l' := l.filter (fun a => ! decide (f a = k)) with hl'
    have hcov' : ∀ a ∈ l', f a ∈ ks := by
      intro a ha
      rcases List.mem_filter.mp ha with ⟨hmem, hne⟩
      have := hcov a hmem
      simp only [Bool.not_eq_eq_eq_not, Bool.not_true, decide_eq_false_iff_not] at hne
      rcases List.mem_cons.mp this with h | h
      · exact absurd h hne
      · exact h
    have hfib : ∀ k' ∈ ks,
        (l.filter (fun a => decide (f a = k'))).filterMap g
          = (l'.filter (fun a => decide (f a = k'))).filterMap g := by
      intro k' hk'
      rw [hl', filter_filter_and]
      congr 1
      apply List.filter_congr
      intro a _
      have hkk : k' ≠ k := fun hc => hk (hc ▸ hk')
      by_cases h : f a = k'
      · simp [h, hkk]
      · simp [h]
    rw [List.map_cons, List.sum_cons, ← hsplit]
    congr 1
    rw [← ih l' hnd' hcov']
    congr 1
    apply List.map_congr_left
    intro k' hk'
    rw [hfib k' hk']

/-! ## Structural lemmas about the aggregator -/

theorem aggregate_ok_inv (t : GeoTable) (p : ℤ) (bs : List Bucket)
    (h : aggregate_geo_clusters t p = .ok bs) :
    (t.rows = [] ∧ bs = []) ∨
    (¬ (t.hasLat = true ∧ t.hasLon = true) ∧ bs = []) ∨
    (tmpOf t = [] ∧ bs = []) ∨
    (t.hasLat = true ∧ t.hasLon = true ∧ t.hasRevenueCol = true ∧
      bs = sortedBuckets t p) := by
  unfold aggregate_geo_clusters at h
  by_cases h1 : t.rows.isEmpty = true
  · rw [if_pos h1] at h
    exact Or.inl ⟨List.isEmpty_iff.mp h1, (Except.ok.inj h).symm⟩
  · rw [if_neg h1] at h
    by_cases h2 : t.hasLat = true ∧ t.hasLon = true
    · rw [if_neg (not_not_intro h2)] at h
      by_cases h3 : t.hasRevenueCol = true
      · rw [if_neg (not_not_intro h3)] at h
        by_cases h4 : (tmpOf t).isEmpty = true
        · rw [if_pos h4] at h
          exact Or.inr (Or.inr (Or.inl ⟨List.isEmpty_iff.mp h4,
            (Except.ok.inj h).symm⟩))
        · rw [if_neg h4] at h
          exact Or.inr (Or.inr (Or.inr ⟨h2.1, h2.2, h3, (Except.ok.inj h).symm⟩))
      · rw [if_pos h3] at h
        exact absurd h (by simp)
    · rw [if_pos h2] at h
      exact Or.inr (Or.inl ⟨h2, (Except.ok.inj h).symm⟩)

theorem bucketFor_cluster (tmp : List GeoRow) (p : ℤ) (k : ℚ × ℚ) :
    (bucketFor tmp p k).cluster = k := rfl

theorem keysOf_nodup (t : GeoTable) (p : ℤ) : (keysOf t p).Nodup :=
  ((isortLE_perm keyLE _).nodup_iff).mpr (firstOcc_nodup _)

theorem keysOf_cover (t : GeoTable) (p : ℤ) (r : GeoRow) (hr : r ∈ tmpOf t) :
    clusterKey p r ∈ keysOf t p := by
  rw [keysOf, (isortLE_perm keyLE _).mem_iff, mem_firstOcc]
  exact List.mem_map_of_mem (clusterKey p) hr

theorem mem_sortedBuckets (t : GeoTable) (p : ℤ) (b : Bucket) :
    b ∈ sortedBuckets t p ↔ ∃ k ∈ keysOf t p, b = bucketFor (tmpOf t) p k := by
  rw [sortedBuckets, List.mem_reverse, (isortLE_perm revLE _).mem_iff,
    List.mem_reverse, List.mem_map]
  constructor
  · rintro ⟨k, hk, rfl⟩
    exact ⟨k, hk, rfl⟩
  · rintro ⟨k, hk, rfl⟩
    exact ⟨k, hk, rfl⟩

/-! ## Projections of the normalizer -/

theorem load_rows (t : RawTable) :
    (load_sales_csv t).rows = t.rows.map (normalizeRow t) := rfl

theorem normalizeRow_valVentaLi (t : RawTable) (r : RawRow) :
    (normalizeRow t r).valVentaLi = numericCol t.hasValVentaLi r.valVentaLi := rfl

theorem normalizeRow_revenue_vta (t : RawTable) (r : RawRow) :
    (normalizeRow t r).revenue_vta
      = if t.hasVtaFacturada then numericCol t.hasVtaFacturada r.vtaFacturada
        else none := rfl

theorem normalizeRow_revenue_val (t : RawTable) (r : RawRow) :
    (normalizeRow t r).revenue_val
      = if t.hasValVentaLi then numericCol t.hasValVentaLi r.valVentaLi
        else none := rfl

theorem normalizeRow_revenue_default (t : RawTable) (r : RawRow) :
    (normalizeRow t r).revenue_default
      = ((normalizeRow t r).revenue_vta).or ((normalizeRow t r).revenue_val) := rfl

theorem normalizeRow_margin (t : RawTable) (r : RawRow) :
    (normalizeRow t r).margin
      = if t.hasCosto ∧ t.hasValVentaLi then
          pdSub (normalizeRow t r).valVentaLi (normalizeRow t r).costo
        else none := rfl

theorem normalizeRow_margin_pct (t : RawTable) (r : RawRow) :
    (normalizeRow t r).margin_pct
      = if t.hasCosto ∧ t.hasValVentaLi then
          pdDiv (normalizeRow t r).margin
            (replaceZeroNA (normalizeRow t r).valVentaLi)
        else none := rfl

theorem normalizeRow_lat (t : RawTable) (r : RawRow) :
    (normalizeRow t r).lat
      = (if t.hasGeoreferenciado then
          extractLatlon (some (r.georeferenciado.getD "")) else (none, none)).1 := rfl

theorem normalizeRow_lon (t : RawTable) (r : RawRow) :
    (normalizeRow t r).lon
      = (if t.hasGeoreferenciado then
          extractLatlon (some (r.georeferenciado.getD "")) else (none, none)).2 := rfl

/-! ## The stated properties -/

/-- **C1.**  For every normalized record, `revenue_default` equals
`revenue_vta` (`VtaFacturada`) when that is non-nil, otherwise equals
`revenue_val` (`ValVentaLi`) when that is non-nil, otherwise nil; and each
revenue alternative is nil when its source column is absent from the input,
so `revenue_default` is never populated from an absent source column. -/
theorem revenue_default_spec (t : RawTable) (n : NormRow)
    (hn : n ∈ (load_sales_csv t).rows) :
    (n.revenue_vta ≠ none → n.revenue_default = n.revenue_vta) ∧
    (n.revenue_vta = none → n.revenue_default = n.revenue_val) ∧
    (t.hasVtaFacturada = false → n.revenue_vta = none) ∧
    (t.hasValVentaLi = false → n.revenue_val = none) ∧
    (t.hasVtaFacturada = false → t.hasValVentaLi = false →
      n.revenue_default = none) := by
  rw [load_rows] at hn
  rcases List.mem_map.mp hn with ⟨r, hr, rfl⟩
  refine ⟨?_, ?_, ?_, ?_, ?_⟩
  · intro h
    rw [normalizeRow_revenue_default]
    cases hv : (normalizeRow t r).revenue_vta with
    | none => exact absurd hv h
    | some x => simp [Option.or]
  · intro h
    rw [normalizeRow_revenue_default, h]
    simp [Option.or]
  · intro h
    rw [normalizeRow_revenue_vta, h]
    simp
  · intro h
    rw [normalizeRow_revenue_val, h]
    simp
  · intro h1 h2
    rw [normalizeRow_revenue_default, normalizeRow_revenue_vta,
      normalizeRow_revenue_val, h1, h2]
    simp [Option.or]

/-- Witness for C1: the record of `rawT1` instantiates every part of the
statement. -/
theorem revenue_default_spec_witness :
    normalizeRow rawT1 rawR1 ∈ (load_sales_csv rawT1).rows ∧
    (((normalizeRow rawT1 rawR1).revenue_vta ≠ none →
        (normalizeRow rawT1 rawR1).revenue_default
          = (normalizeRow rawT1 rawR1).revenue_vta) ∧
      ((normalizeRow rawT1 rawR1).revenue_vta = none →
        (normalizeRow rawT1 rawR1).revenue_default
          = (normalizeRow rawT1 rawR1).revenue_val) ∧
      (rawT1.hasVtaFacturada = false → (normalizeRow rawT1 rawR1).revenue_vta = none) ∧
      (rawT1.hasValVentaLi = false → (normalizeRow rawT1 rawR1).revenue_val = none) ∧
      (rawT1.hasVtaFacturada = false → rawT1.hasValVentaLi = false →
        (normalizeRow rawT1 rawR1).revenue_default = none)) :=
  ⟨by decide, revenue_default_spec rawT1 (normalizeRow rawT1 rawR1) (by decide)⟩

/-- **C7.**  Margin computation is total (the embedding returns an optional
rational, never raises, and a defined `margin_pct` is an exact quotient with
nonzero denominator — no infinity): `margin_pct` is nil whenever
`ValVentaLi` is zero or nil or either source column (`Costo`, `ValVentaLi`)
is absent. -/
theorem margin_pct_safe (t : RawTable) (n : NormRow)
    (hn : n ∈ (load_sales_csv t).rows) :
    (n.valVentaLi = some 0 → n.margin_pct = none) ∧
    (n.valVentaLi = none → n.margin_pct = none) ∧
    (t.hasCosto = false ∨ t.hasValVentaLi = false →
      n.margin = none ∧ n.margin_pct = none) ∧
    (∀ q : ℚ, n.margin_pct = some q →
      ∃ m v : ℚ, n.margin = some m ∧ n.valVentaLi = some v ∧ v ≠ 0 ∧
        q = qdiv m v) := by
  rw [load_rows] at hn
  rcases List.mem_map.mp hn with ⟨r, hr, rfl⟩
  refine ⟨?_, ?_, ?_, ?_⟩
  · intro h
    rw [normalizeRow_margin_pct, h]
    by_cases hc : t.hasCosto ∧ t.hasValVentaLi
    · rw [if_pos hc]
      cases (normalizeRow t r).margin <;> simp [pdDiv, replaceZeroNA]
    · rw [if_neg hc]
  · intro h
    rw [normalizeRow_margin_pct, h]
    by_cases hc : t.hasCosto ∧ t.hasValVentaLi
    · rw [if_pos hc]
      cases (normalizeRow t r).margin <;> simp [pdDiv, replaceZeroNA]
    · rw [if_neg hc]
  · intro h
    have hc : ¬ (t.hasCosto = true ∧ t.hasValVentaLi = true) := by
      rcases h with h | h <;> simp [h]
    rw [normalizeRow_margin, normalizeRow_margin_pct, if_neg hc, if_neg hc]
    exact ⟨rfl, rfl⟩
  · intro q hq
    rw [normalizeRow_margin_pct] at hq
    by_cases hc : t.hasCosto ∧ t.hasValVentaLi
    · rw [if_pos hc] at hq
      cases hm : (normalizeRow t r).margin with
      | none => rw [hm] at hq; simp [pdDiv] at hq
      | some m =>
        cases hv : (normalizeRow t r).valVentaLi with
        | none => rw [hm, hv] at hq; simp [pdDiv, replaceZeroNA] at hq
        | some v =>
          rw [hm, hv] at hq
          by_cases hv0 : v = 0
          · rw [hv0] at hq
            simp [pdDiv, replaceZeroNA] at hq
          · refine ⟨m, v, rfl, rfl, hv0, ?_⟩
            simp [pdDiv, replaceZeroNA, hv0] at hq
            exact hq.symm
    · rw [if_neg hc] at hq
      exact absurd hq (by simp)

/-- Witness for C7: the record of `rawT1` (`ValVentaLi = 20`, `Costo = 5`)
instantiates the statement; its `margin_pct` is `15 / 20`. -/
theorem margin_pct_safe_witness :
    normalizeRow rawT1 rawR1 ∈ (load_sales_csv rawT1).rows ∧
    (((normalizeRow rawT1 rawR1).valVentaLi = some 0 →
        (normalizeRow rawT1 rawR1).margin_pct = none) ∧
      ((normalizeRow rawT1 rawR1).valVentaLi = none →
        (normalizeRow rawT1 rawR1).margin_pct = none) ∧
      (rawT1.hasCosto = false ∨ rawT1.hasValVentaLi = false →
        (normalizeRow rawT1 rawR1).margin = none ∧
          (normalizeRow rawT1 rawR1).margin_pct = none) ∧
      (∀ q : ℚ, (normalizeRow rawT1 rawR1).margin_pct = some q →
        ∃ m v : ℚ, (normalizeRow rawT1 rawR1).margin = some m ∧
          (normalizeRow rawT1 rawR1).valVentaLi = some v ∧ v ≠ 0 ∧
          q = qdiv m v)) :=
  ⟨by decide, margin_pct_safe rawT1 (normalizeRow rawT1 rawR1) (by decide)⟩

/-- **C9.**  A nonempty table with `lat` and `lon` columns but no column of
the chosen revenue name makes `aggregate_geo_clusters` fail at the column
selection (a `KeyError`) instead of returning an empty result. -/
theorem missing_revenue_column_error (t : GeoTable) (p : ℤ)
    (h1 : t.rows ≠ []) (h2 : t.hasLat = true) (h3 : t.hasLon = true)
    (h4 : t.hasRevenueCol = false) :
    aggregate_geo_clusters t p = .error "KeyError: revenue column not in index" := by
  have e1 : ¬ (t.rows.isEmpty = true) := by simpa [List.isEmpty_iff] using h1
  unfold aggregate_geo_clusters
  rw [if_neg e1, if_neg (not_not_intro ⟨h2, h3⟩), if_pos (by simp [h4])]

/-- Witness for C9 at the concrete table `geoT9`. -/
theorem missing_revenue_column_error_witness :
    geoT9.rows ≠ [] ∧ geoT9.hasLat = true ∧ geoT9.hasLon = true ∧
    geoT9.hasRevenueCol = false ∧
    aggregate_geo_clusters geoT9 3
      = .error "KeyError: revenue column not in index" :=
  ⟨by decide, rfl, rfl, rfl,
    missing_revenue_column_error geoT9 3 (by decide) rfl rfl rfl⟩

/-- **C10.**  The normalizer's output always has `lat` and `lon` columns —
uniformly nil when `Georeferenciado` is absent — whereas each categorical
alias column (`cliente`, `producto`, `categoria`, `ciudad`, `zona`) is
omitted entirely when its source column is missing. -/
theorem latlon_columns_always_present (t : RawTable) :
    (load_sales_csv t).hasLat = true ∧ (load_sales_csv t).hasLon = true ∧
    (t.hasGeoreferenciado = false →
      ∀ n ∈ (load_sales_csv t).rows, n.lat = none ∧ n.lon = none) ∧
    (t.hasNombreComercial = false → (load_sales_csv t).hasCliente = false) ∧
    (t.hasDescMaterial = false → (load_sales_csv t).hasProducto = false) ∧
    (t.hasDescGrArticulo = false → (load_sales_csv t).hasCategoria = false) ∧
    (t.hasCiudad = false → (load_sales_csv t).hasCiudad = false) ∧
    (t.hasZonaVenta = false → (load_sales_csv t).hasZona = false) := by
  refine ⟨rfl, rfl, ?_, fun h => h, fun h => h, fun h => h, fun h => h, fun h => h⟩
  intro h n hn
  rw [load_rows] at hn
  rcases List.mem_map.mp hn with ⟨r, hr, rfl⟩
  rw [normalizeRow_lat, normalizeRow_lon, h]
  simp

/-- Witness for C10 at `rawT0`, a table with no source columns. -/
theorem latlon_columns_always_present_witness :
    (load_sales_csv rawT0).hasLat = true ∧ (load_sales_csv rawT0).hasLon = true ∧
    (rawT0.hasGeoreferenciado = false →
      ∀ n ∈ (load_sales_csv rawT0).rows, n.lat = none ∧ n.lon = none) ∧
    (rawT0.hasNombreComercial = false → (load_sales_csv rawT0).hasCliente = false) ∧
    (rawT0.hasDescMaterial = false → (load_sales_csv rawT0).hasProducto = false) ∧
    (rawT0.hasDescGrArticulo = false → (load_sales_csv rawT0).hasCategoria = false) ∧
    (rawT0.hasCiudad = false → (load_sales_csv rawT0).hasCiudad = false) ∧
    (rawT0.hasZonaVenta = false → (load_sales_csv rawT0).hasZona = false) :=
  latlon_columns_always_present rawT0

/-- **C5.**  Contrary to the specification, a whitespace-separated
coordinate pair without a comma is rejected by `_extract_latlon`: the
function returns early whenever the value contains no comma, so the
whitespace-splitting fallback (clearly intended for exactly these inputs)
never reaches them, and `"10.5 -66.9"` yields `(nil, nil)` instead of
`(10.5, -66.9)`. -/
theorem extract_latlon_space_eval :
    extractLatlon (some "10.5 -66.9") = (none, none) ∧
    extractLatlon (some "10.5 -66.9")
      ≠ (some (mkRat 105 10), some (mkRat (-669) 10)) := by
  constructor
  · decide
  · decide

/-- **C6.**  Contrary to the specification (and to the docstring's list of
handled examples), `_to_number("$1,234.56")` is mangled by the
European-format branch — the single comma plus a period make the code strip
the period and read the comma as decimal point — yielding `1.23456`
(= `123456/100000`), not `1234.56` (= `123456/100`). -/
theorem to_number_currency_eval :
    toNumber (some "$1,234.56") = some (mkRat 123456 100000) ∧
    toNumber (some "$1,234.56") ≠ some (mkRat 123456 100) := by
  constructor
  · decide
  · decide

theorem bucketFor_count (tmp : List GeoRow) (p : ℤ) (k : ℚ × ℚ) :
    (bucketFor tmp p k).count
      = ((tmp.filter (fun r => decide (clusterKey p r = k))).filterMap
          (fun r => r.rev)).length := rfl

theorem bucketFor_revenue (tmp : List GeoRow) (p : ℤ) (k : ℚ × ℚ) :
    (bucketFor tmp p k).revenue
      = qsum ((tmp.filter (fun r => decide (clusterKey p r = k))).filterMap
          (fun r => r.rev)) := rfl

/-- **C2 counterexample.**  On a table with two coordinate-present records at
the same rounded location, one of them with a null revenue cell, the bucket's
`count` is `1` while the records matching the bucket key number `2`: `count`
counts non-null revenue cells, not constituent records. -/
theorem bucket_count_counterexample :
    aggregate_geo_clusters geoT2 3 = .ok [bkt2] ∧
    bkt2.count = 1 ∧ countCoordMatching geoT2 3 bkt2.cluster = 2 ∧
    bkt2.count ≠ countCoordMatching geoT2 3 bkt2.cluster := by
  refine ⟨by decide, by decide, by decide, by decide⟩

/-- **C2 (amended).**  Every bucket's `count` equals the number of records of
the input table with both coordinates present, rounded coordinates equal to
the bucket's key, and a non-null value in the chosen revenue column
(`count=(revenue_col, 'count')` skips nulls). -/
theorem bucket_count_nonnull (t : GeoTable) (p : ℤ) (bs : List Bucket)
    (h : aggregate_geo_clusters t p = .ok bs) (b : Bucket) (hb : b ∈ bs) :
    b.count = countCoordRevMatching t p b.cluster := by
  rcases aggregate_ok_inv t p bs h with ⟨-, rfl⟩ | ⟨-, rfl⟩ | ⟨-, rfl⟩ |
    ⟨-, -, -, rfl⟩
  · exact absurd hb (List.not_mem_nil b)
  · exact absurd hb (List.not_mem_nil b)
  · exact absurd hb (List.not_mem_nil b)
  · rcases (mem_sortedBuckets t p b).mp hb with ⟨k, hk, rfl⟩
    rw [bucketFor_cluster, bucketFor_count, length_filterMap_isSome,
      countCoordRevMatching, tmpOf, filter_filter_and, filter_filter_and]
    congr 1
    apply List.filter_congr
    intro r _
    cases coordPresent r <;> cases hrev : (r.rev).isSome <;>
      cases hkey : decide (clusterKey p r = k) <;> simp [hrev, hkey]

/-- Witness for the amended C2 at the concrete table `geoT2`. -/
theorem bucket_count_nonnull_witness :
    aggregate_geo_clusters geoT2 3 = .ok [bkt2] ∧ bkt2 ∈ [bkt2] ∧
    bkt2.count = countCoordRevMatching geoT2 3 bkt2.cluster :=
  ⟨by decide, by decide,
    bucket_count_nonnull geoT2 3 [bkt2] (by decide) bkt2 (by decide)⟩

/-- **C3.**  Conservation: for a table whose coordinate columns, when absent,
have no values (every actual frame), the revenues of the returned buckets sum
to the sum of the non-null revenue values over the coordinate-present
records. -/
theorem cluster_revenue_conservation (t : GeoTable) (p : ℤ) (bs : List Bucket)
    (ht : latlonConsistent t) (h : aggregate_geo_clusters t p = .ok bs) :
    qsum (bs.map Bucket.revenue)
      = qsum ((t.rows.filter coordPresent).filterMap GeoRow.rev) := by
  rcases aggregate_ok_inv t p bs h with ⟨hrows, rfl⟩ | ⟨hflag, rfl⟩ |
    ⟨htmp, rfl⟩ | ⟨hlat, hlon, hrev, rfl⟩
  · rw [hrows]
    rfl
  · have hnil : t.rows.filter coordPresent = [] := by
      rw [List.filter_eq_nil_iff]
      intro r hr
      rcases not_and_or.mp hflag with hf | hf
      · have hlatf : t.hasLat = false := by
          cases hv : t.hasLat
          · rfl
          · exact absurd hv hf
        rw [coordPresent, ht.1 hlatf r hr]
        simp
      · have hlonf : t.hasLon = false := by
          cases hv : t.hasLon
          · rfl
          · exact absurd hv hf
        rw [coordPresent, ht.2 hlonf r hr]
        simp
    rw [hnil]
    rfl
  · rw [show t.rows.filter coordPresent = tmpOf t from rfl, htmp]
    rfl
  · rw [qsum_eq, qsum_eq]
    have hperm : List.Perm (sortedBuckets t p)
        ((keysOf t p).map (bucketFor (tmpOf t) p)) := by
      unfold sortedBuckets
      exact (List.reverse_perm _).trans
        ((isortLE_perm revLE _).trans (List.reverse_perm _))
    rw [(hperm.map Bucket.revenue).sum_eq, List.map_map]
    have hqs : (List.map (Bucket.revenue ∘ bucketFor (tmpOf t) p) (keysOf t p))
        = List.map (fun k => (((tmpOf t).filter
            (fun r => decide (clusterKey p r = k))).filterMap
              (fun r => r.rev)).sum) (keysOf t p) := by
      apply List.map_congr_left
      intro k _
      rw [Function.comp_apply, bucketFor_revenue, qsum_eq]
    rw [hqs, sum_fibers (clusterKey p) (fun r => r.rev) (keysOf t p) (tmpOf t)
      (keysOf_nodup t p) (fun r hr => keysOf_cover t p r hr)]
    rfl

/-- Witness for C3 at the concrete table `geoT2`. -/
theorem cluster_revenue_conservation_witness :
    latlonConsistent geoT2 ∧ aggregate_geo_clusters geoT2 3 = .ok [bkt2] ∧
    qsum ([bkt2].map Bucket.revenue)
      = qsum ((geoT2.rows.filter coordPresent).filterMap GeoRow.rev) :=
  ⟨⟨fun h => absurd h (by decide), fun h => absurd h (by decide)⟩, by decide,
    cluster_revenue_conservation geoT2 3 [bkt2]
      ⟨fun h => absurd h (by decide), fun h => absurd h (by decide)⟩ (by decide)⟩

/-- **C4 counterexample.**  Two records with equal revenue, encountered at
keys `(5, 0)` then `(1, 0)`: the output lists the tied buckets as
`[(1, 0), (5, 0)]` — ascending key order as produced by `groupby` — not in
first-encountered order `[(5, 0), (1, 0)]`. -/
theorem bucket_order_counterexample :
    aggregate_geo_clusters geoT4 3 = .ok [bkt4a, bkt4b] ∧
    bkt4a.revenue = bkt4b.revenue ∧
    firstEncounterKeys geoT4 3 = [(5, 0), (1, 0)] ∧
    [bkt4a.cluster, bkt4b.cluster] ≠ firstEncounterKeys geoT4 3 := by
  refine ⟨by decide, by decide, by decide, by decide⟩

/-- **C4 (amended).**  The bucket sequence is sorted by revenue in
descending order, and buckets with equal revenue appear in ascending
cluster-key order — the order `groupby` (which sorts group keys) produced
and the double-reversal descending sort preserves — so the output order is
deterministic. -/
theorem bucket_order_sorted (t : GeoTable) (p : ℤ) (bs : List Bucket)
    (h : aggregate_geo_clusters t p = .ok bs) : bs.Pairwise bucketOrder := by
  rcases aggregate_ok_inv t p bs h with ⟨-, rfl⟩ | ⟨-, rfl⟩ | ⟨-, rfl⟩ |
    ⟨-, -, -, rfl⟩
  · exact List.Pairwise.nil
  · exact List.Pairwise.nil
  · exact List.Pairwise.nil
  · have hkeys : (keysOf t p).Pairwise keyLT := by
      refine isortLE_pairwiseP keyLE keyLT (· ≠ ·) keyLE_total keyLE_trans
        ?_ ?_ _ (firstOcc_nodup _)
      · intro x y hne hle
        exact keyLE_ne_lt x y hle hne
      · intro x y _ hle
        exact not_keyLE_lt x y hle
    have hgroups : ((keysOf t p).map (bucketFor (tmpOf t) p)).Pairwise
        (fun b₁ b₂ => keyLT b₁.cluster b₂.cluster) := by
      rw [List.pairwise_map]
      exact hkeys
    have hrev : (((keysOf t p).map (bucketFor (tmpOf t) p)).reverse).Pairwise
        (fun b₁ b₂ => keyLT b₂.cluster b₁.cluster) :=
      (List.pairwise_reverse).mpr hgroups
    have hsorted : (isortLE revLE
        (((keysOf t p).map (bucketFor (tmpOf t) p)).reverse)).Pairwise
        (fun b₁ b₂ => b₁.revenue ≤ b₂.revenue ∧
          (b₁.revenue = b₂.revenue → keyLT b₂.cluster b₁.cluster)) := by
      refine isortLE_pairwiseP revLE _ (fun b₁ b₂ => keyLT b₂.cluster b₁.cluster)
        revLE_total revLE_trans ?_ ?_ _ hrev
      · intro x y hk hle
        exact ⟨by simpa [revLE] using hle, fun _ => hk⟩
      · intro x y hk hle
        have hlt : y.revenue < x.revenue := by
          simpa [revLE, not_le] using hle
        exact ⟨hlt.le, fun heq => absurd heq hlt.ne⟩
    rw [sortedBuckets, List.pairwise_reverse]
    refine hsorted.imp ?_
    intro b₁ b₂ hP
    rcases lt_or_eq_of_le hP.1 with hlt | heq
    · exact Or.inl hlt
    · exact Or.inr ⟨heq.symm, hP.2 heq⟩

/-- Witness for the amended C4 at the concrete table `geoT4`. -/
theorem bucket_order_sorted_witness :
    aggregate_geo_clusters geoT4 3 = .ok [bkt4a, bkt4b] ∧
    [bkt4a, bkt4b].Pairwise bucketOrder :=
  ⟨by decide, bucket_order_sorted geoT4 3 [bkt4a, bkt4b] (by decide)⟩

/-- **C8 counterexample.**  Latitudes `0.4996` and `0.5004` share the
precision-3 key `(0.500, 0)` (one bucket) but have the distinct precision-0
keys `(0, 0)` and `(1, 0)` (two buckets): coarsening the precision from 3 to
0 *increases* the number of buckets. -/
theorem bucket_monotonicity_counterexample :
    aggregate_geo_clusters geoT8 0 = .ok [bkt8a, bkt8b] ∧
    aggregate_geo_clusters geoT8 3 = .ok [bkt8] ∧
    ¬ ([bkt8a, bkt8b].length ≤ [bkt8].length) := by
  refine ⟨by decide, by decide, by decide⟩

/-- **C8 (amended).**  If rounding each present coordinate to 0 digits
factors through rounding it to 3 digits (no coordinate within `0.0005` of a
half-integer boundary), then precision 0 yields at most as many buckets as
precision 3. -/
theorem bucket_count_monotone (t : GeoTable) (bs0 bs3 : List Bucket)
    (hfac : ∀ r ∈ t.rows, coordPresent r = true →
      pyround 0 (pyround 3 (r.lat.getD 0)) = pyround 0 (r.lat.getD 0) ∧
      pyround 0 (pyround 3 (r.lon.getD 0)) = pyround 0 (r.lon.getD 0))
    (h0 : aggregate_geo_clusters t 0 = .ok bs0)
    (h3 : aggregate_geo_clusters t 3 = .ok bs3) :
    bs0.length ≤ bs3.length := by
  have hlen : ∀ p : ℤ, (sortedBuckets t p).length
      = (firstOcc ((tmpOf t).map (clusterKey p))).length := by
    intro p
    rw [sortedBuckets, List.length_reverse, (isortLE_perm revLE _).length_eq,
      List.length_reverse, List.length_map, keysOf,
      (isortLE_perm keyLE _).length_eq]
  rcases aggregate_ok_inv t 0 bs0 h0 with ⟨-, rfl⟩ | ⟨-, rfl⟩ | ⟨-, rfl⟩ |
    ⟨hlat, hlon, hrev, rfl⟩
  · exact Nat.zero_le _
  · exact Nat.zero_le _
  · exact Nat.zero_le _
  · rcases aggregate_ok_inv t 3 bs3 h3 with ⟨hr, rfl⟩ | ⟨hf, rfl⟩ |
      ⟨ht3, rfl⟩ | ⟨-, -, -, rfl⟩
    · rw [hlen 0, show tmpOf t = [] from by rw [tmpOf, hr]; rfl]
      exact Nat.le_refl _
    · exact absurd ⟨hlat, hlon⟩ hf
    · rw [hlen 0, ht3]
      exact Nat.le_refl _
    · rw [hlen 0, hlen 3]
      have hmap : (tmpOf t).map (clusterKey 0)
          = ((tmpOf t).map (clusterKey 3)).map
              (fun k => (pyround 0 k.1, pyround 0 k.2)) := by
        rw [List.map_map]
        apply List.map_congr_left
        intro r hr
        rcases List.mem_filter.mp hr with ⟨hmem, hcp⟩
        rcases hfac r hmem hcp with ⟨hla, hlo⟩
        simp only [Function.comp_apply, clusterKey]
        rw [← hla, ← hlo]
      rw [hmap]
      exact firstOcc_map_length_le _ _

/-- Witness for the amended C8 at the concrete table `geoT2` (whose
coordinates are integers, so rounding factors). -/
theorem bucket_count_monotone_witness :
    (∀ r ∈ geoT2.rows, coordPresent r = true →
      pyround 0 (pyround 3 (r.lat.getD 0)) = pyround 0 (r.lat.getD 0) ∧
      pyround 0 (pyround 3 (r.lon.getD 0)) = pyround 0 (r.lon.getD 0)) ∧
    aggregate_geo_clusters geoT2 0 = .ok [bkt2] ∧
    aggregate_geo_clusters geoT2 3 = .ok [bkt2] ∧
    [bkt2].length ≤ [bkt2].length :=
  ⟨by decide, by decide, by decide,
    bucket_count_monotone geoT2 [bkt2] [bkt2] (by decide) (by decide) (by decide)⟩

end Dashboard
